import Mathlib

/-!
Verification of the `doc_ocr_jobs.py` tutorial script (Modal document-OCR
job queue) against its natural-language specification.

The script itself only declares configuration (image build steps, the
`parse_receipt` handler with `gpu="any"`, `retries=3`, and a local
entrypoint `main`); the platform primitives it calls (retry supervisor,
dispatcher, image builder, function registry, autoscaler) are external.
Definitions translated directly from the script are marked as such;
definitions of the missing platform are marked `Modelled from the spec:`.
-/

namespace DocOcrJobs

/-! ## Constants from the script -/

/-- From `stub = modal.Stub("example-doc-ocr-jobs")`. -/
def stubName : String := "example-doc-ocr-jobs"

/-- From `CACHE_PATH = "/root/model_cache"`. -/
def CACHE_PATH : String := "/root/model_cache"

/-- From `MODEL_NAME = "naver-clova-ix/donut-base-finetuned-cord-v2"`. -/
def MODEL_NAME : String := "naver-clova-ix/donut-base-finetuned-cord-v2"

/-- From the fallback URL in `main`. -/
def fallbackUrl : String :=
  "https://nwlc.org/wp-content/uploads/2022/01/Brandys-walmart-receipt-8.webp"

/-! ## Image spec (from the chained `modal.Image` builder in the script) -/

/-- One provisioning step of an Image Spec. -/
inductive ImageStep
  | debianSlim
  | pipInstall (pkgs : List String)
  | runFunction (fname : String)
deriving DecidableEq, Repr

/-- The ordered step sequence of the script's `image`:
`modal.Image.debian_slim().pip_install(four pinned packages).run_function(download_model_weights)`. -/
def imageSteps : List ImageStep :=
  [ ImageStep.debianSlim,
    ImageStep.pipInstall
      [ "donut-python==1.0.7",
        "huggingface-hub==0.16.4",
        "transformers==4.21.3",
        "timm==0.5.4" ],
    ImageStep.runFunction "download_model_weights" ]

/-! ## Function Definition (from the `@stub.function(...)` decorator) -/

/-- A Function Definition as in the spec's data model:
name, app-namespace, resource requirement, image reference, retry policy. -/
structure FunctionDefinition where
  name : String
  appNamespace : String
  gpu : Option String
  imageRef : List ImageStep
  retries : Nat
deriving DecidableEq, Repr

/-- The script's `parse_receipt` definition:
`@stub.function(gpu="any", image=image, retries=3)`. -/
def parseReceiptDef : FunctionDefinition :=
  ⟨"parse_receipt", stubName, some "any", imageSteps, 3⟩

/-! ## Retry Supervisor (Modelled from the spec, section 4.4) -/

/-- Result of one execution attempt on a Worker: either a value or an
uncaught runtime error. -/
inductive AttemptResult (α ε : Type) where
  | success (r : α)
  | failure (e : ε)
deriving DecidableEq, Repr

/-- Failure classification of the Retry Supervisor. -/
inductive Classification where
  | retryable
  | fatal
deriving DecidableEq, Repr

/-- Invocation status, following the spec's state machine
`Queued -> Running -> (Succeeded | Failed-Retryable | Failed-Fatal)`. -/
inductive Status (α ε : Type) where
  | queued
  | running
  | succeeded (r : α)
  | failedFatal (e : ε)
deriving DecidableEq, Repr

/-- Modelled from the spec: the default classifier of the Retry
Supervisor, pluggable via a set of errors explicitly marked
non-retryable.  "Any uncaught runtime error ... is classified
Failed-Retryable by default unless the error is explicitly one that
should not be retried." -/
def specClassify {ε : Type} (nonRetryable : ε → Bool) (e : ε) : Classification :=
  if nonRetryable e then Classification.fatal else Classification.retryable

/-- The script's effective policy: `retries=3` is applied with no
per-error classification, so no error is marked non-retryable. -/
def parseReceiptNonRetryable {ε : Type} (_e : ε) : Bool := false

/-- The classifier the script induces: every error is retryable. -/
def parseReceiptClassify {ε : Type} (e : ε) : Classification :=
  specClassify parseReceiptNonRetryable e

/-- Modelled from the spec: the Retry Supervisor loop.  `i` is the index
of the next attempt, `rem` the number of attempts still allowed; returns
the total number of executed attempts and the terminal status.  On a
retryable failure it re-enqueues while attempts remain; after exhausting
`max_attempts` total attempts it transitions to `Failed-Fatal` carrying
the last attempt's error; a fatal-classified error terminates at once. -/
def superviseGo {α ε : Type} (cls : ε → Classification)
    (attempt : Nat → AttemptResult α ε) : Nat → Nat → Nat × Status α ε
  | i, 0 => (i, Status.queued)
  | i, rem + 1 =>
      match attempt i with
      | AttemptResult.success r => (i + 1, Status.succeeded r)
      | AttemptResult.failure e =>
          match cls e with
          | Classification.fatal => (i + 1, Status.failedFatal e)
          | Classification.retryable =>
              if rem = 0 then (i + 1, Status.failedFatal e)
              else superviseGo cls attempt (i + 1) rem

/-- Modelled from the spec: run one Invocation under the Retry
Supervisor with `max_attempts = k`. -/
def supervise {α ε : Type} (cls : ε → Classification)
    (attempt : Nat → AttemptResult α ε) (k : Nat) : Nat × Status α ε :=
  superviseGo cls attempt 0 k

/-- If every attempt fails with a retryable error, the supervisor
executes exactly the allowed number of attempts and ends Failed-Fatal
with the last error. -/
lemma superviseGo_all_transient {α ε : Type} (cls : ε → Classification)
    (attempt : Nat → AttemptResult α ε) (errs : Nat → ε)
    (hatt : ∀ j, attempt j = AttemptResult.failure (errs j))
    (hcls : ∀ j, cls (errs j) = Classification.retryable) :
    ∀ k i, 1 ≤ k →
      superviseGo cls attempt i k = (i + k, Status.failedFatal (errs (i + k - 1))) := by
  intro k
  induction k with
  | zero => intro i h; omega
  | succ rem ih =>
      intro i _
      show superviseGo cls attempt i (rem + 1) = _
      rw [superviseGo, hatt i]
      dsimp only
      rw [hcls i]
      dsimp only
      rcases Nat.eq_zero_or_pos rem with hrem | hrem
      · subst hrem; simp
      · have h1 : 1 ≤ rem := hrem
        rw [if_neg (by omega), ih (i + 1) h1]
        have h2 : i + 1 + rem = i + (rem + 1) := by omega
        rw [h2]

/-- C1.  For a Function Definition with `max_attempts = k` (the script
configures `parse_receipt` with retry limit 3), an Invocation whose
every attempt fails transiently executes exactly k attempts — never
k + 1 — and ends in the terminal Failed-Fatal state carrying the last
attempt's error. -/
theorem claim_C1 {α ε : Type} (k : Nat) (hk : 1 ≤ k)
    (attempt : Nat → AttemptResult α ε) (errs : Nat → ε)
    (hatt : ∀ j, attempt j = AttemptResult.failure (errs j)) :
    parseReceiptDef.retries = 3 ∧
    supervise parseReceiptClassify attempt k = (k, Status.failedFatal (errs (k - 1))) ∧
    (supervise parseReceiptClassify attempt k).1 ≠ k + 1 := by
  have h := superviseGo_all_transient parseReceiptClassify attempt errs hatt
    (fun j => rfl) k 0 hk
  have h0 : (0 : Nat) + k = k := by omega
  rw [h0] at h
  refine ⟨rfl, h, ?_⟩
  show (superviseGo parseReceiptClassify attempt 0 k).1 ≠ k + 1
  rw [h]
  omega

/-- Witness for C1 at k = 3 with every attempt failing transiently. -/
theorem claim_C1_witness :
    parseReceiptDef.retries = 3 ∧
    supervise parseReceiptClassify (fun j => (AttemptResult.failure j : AttemptResult Nat Nat)) 3
      = (3, Status.failedFatal 2) ∧
    (supervise parseReceiptClassify (fun j => (AttemptResult.failure j : AttemptResult Nat Nat)) 3).1 ≠ 3 + 1 :=
  claim_C1 3 (by decide) (fun j => AttemptResult.failure j) (fun j => j) (fun j => rfl)

/-- C2.  An uncaught runtime error is classified Failed-Retryable by
default; an error explicitly marked non-retryable is not retried (the
supervisor stops after that single attempt even when more attempts
remain); and the script's `parse_receipt` applies the same `retries=3`
policy to every error with no classification — every error retryable. -/
theorem claim_C2 {α ε : Type} (m : ε → Bool) (e : ε)
    (attempt : Nat → AttemptResult α ε) (k : Nat) :
    (m e = false → specClassify m e = Classification.retryable) ∧
    (m e = true → attempt 0 = AttemptResult.failure e → 1 ≤ k →
      supervise (specClassify m) attempt k = (1, Status.failedFatal e)) ∧
    parseReceiptClassify e = Classification.retryable := by
  refine ⟨?_, ?_, rfl⟩
  · intro hm
    simp [specClassify, hm]
  · intro hm hatt hk
    obtain ⟨rem, hrem⟩ : ∃ rem, k = rem + 1 := ⟨k - 1, by omega⟩
    subst hrem
    show superviseGo (specClassify m) attempt 0 (rem + 1) = _
    rw [superviseGo, hatt]
    simp [specClassify, hm]

/-- Witness for C2: an unmarked error is retryable; a marked error is
not retried even with 2 attempts allowed; the script retries everything. -/
theorem claim_C2_witness :
    specClassify (fun e => decide (e = 5)) (7 : Nat) = Classification.retryable ∧
    supervise (specClassify (fun e => decide (e = 5)))
      (fun _ => (AttemptResult.failure 5 : AttemptResult Nat Nat)) 2
      = (1, Status.failedFatal 5) ∧
    parseReceiptClassify (7 : Nat) = Classification.retryable := by
  refine ⟨?_, ?_, ?_⟩
  · exact (claim_C2 (fun e => decide (e = 5)) (7 : Nat)
      (fun _ => (AttemptResult.failure 5 : AttemptResult Nat Nat)) 2).1 (by decide)
  · exact (claim_C2 (fun e => decide (e = 5)) (5 : Nat)
      (fun _ => (AttemptResult.failure 5 : AttemptResult Nat Nat)) 2).2.1 (by decide) rfl (by decide)
  · exact (claim_C2 (fun e => decide (e = 5)) (7 : Nat)
      (fun _ => (AttemptResult.failure 5 : AttemptResult Nat Nat)) 2).2.2

/-! ## Job Dispatcher: spawn and call (Modelled from the spec, section 4.3) -/

/-- Whether a status is terminal (Succeeded or Failed-Fatal). -/
def isTerminal {α ε : Type} : Status α ε → Bool
  | Status.succeeded _ => true
  | Status.failedFatal _ => true
  | _ => false

/-- What a caller observes from a status: nothing while non-terminal, a
result on Succeeded, the terminal error on Failed-Fatal. -/
def statusToResult {α ε : Type} : Status α ε → Option (Except ε α)
  | Status.succeeded r => some (Except.ok r)
  | Status.failedFatal e => some (Except.error e)
  | _ => none

/-- Modelled from the spec: the observable status trace of one
Invocation under the Retry Supervisor.  Each attempt contributes a
Queued then a Running observation, followed by either a terminal status
or the statuses of the next attempt. -/
def traceGo {α ε : Type} (cls : ε → Classification)
    (attempt : Nat → AttemptResult α ε) : Nat → Nat → List (Status α ε)
  | _, 0 => []
  | i, rem + 1 =>
      Status.queued :: Status.running ::
      (match attempt i with
       | AttemptResult.success r => [Status.succeeded r]
       | AttemptResult.failure e =>
           match cls e with
           | Classification.fatal => [Status.failedFatal e]
           | Classification.retryable =>
               if rem = 0 then [Status.failedFatal e]
               else traceGo cls attempt (i + 1) rem)

/-- Modelled from the spec: the full status trace with `max_attempts = k`. -/
def invocationTrace {α ε : Type} (cls : ε → Classification)
    (attempt : Nat → AttemptResult α ε) (k : Nat) : List (Status α ε) :=
  traceGo cls attempt 0 k

/-- Modelled from the spec: `spawn` enqueues and returns immediately —
it returns a job id while the job is at position 0 of its trace. -/
def spawnReturnIndex : Nat := 0

/-- Modelled from the spec: `call` blocks until the job reaches a
terminal state, then returns the result or raises the terminal error. -/
def callResult {α ε : Type} (cls : ε → Classification)
    (attempt : Nat → AttemptResult α ε) (k : Nat) : Option (Except ε α) :=
  statusToResult (supervise cls attempt k).2

/-- The trace of an Invocation is a non-empty run of non-terminal
statuses, starting Queued, followed by exactly the supervisor's terminal
status. -/
lemma traceGo_shape {α ε : Type} (cls : ε → Classification)
    (attempt : Nat → AttemptResult α ε) :
    ∀ k i, 1 ≤ k →
      ∃ pre, traceGo cls attempt i k = pre ++ [(superviseGo cls attempt i k).2] ∧
        pre.head? = some Status.queued ∧
        (∀ s ∈ pre, isTerminal s = false) ∧
        isTerminal (superviseGo cls attempt i k).2 = true := by
  intro k
  induction k with
  | zero => intro i h; omega
  | succ rem ih =>
      intro i _
      rw [traceGo, superviseGo]
      cases hatt : attempt i with
      | success r =>
          dsimp only
          refine ⟨[Status.queued, Status.running], rfl, rfl, ?_, rfl⟩
          intro s hs
          simp only [List.mem_cons, List.not_mem_nil, or_false] at hs
          rcases hs with rfl | rfl <;> rfl
      | failure e =>
          dsimp only
          cases hcls : cls e with
          | fatal =>
              dsimp only
              refine ⟨[Status.queued, Status.running], rfl, rfl, ?_, rfl⟩
              intro s hs
              simp only [List.mem_cons, List.not_mem_nil, or_false] at hs
              rcases hs with rfl | rfl <;> rfl
          | retryable =>
              dsimp only
              rcases Nat.eq_zero_or_pos rem with hrem | hrem
              · subst hrem
                rw [if_pos rfl, if_pos rfl]
                refine ⟨[Status.queued, Status.running], rfl, rfl, ?_, rfl⟩
                intro s hs
                simp only [List.mem_cons, List.not_mem_nil, or_false] at hs
                rcases hs with rfl | rfl <;> rfl
              · have h1 : 1 ≤ rem := hrem
                have hne : ¬ rem = 0 := by omega
                obtain ⟨pre, hpre, _hhead, hnt, hterm⟩ := ih (i + 1) h1
                rw [if_neg hne, if_neg hne, hpre]
                refine ⟨Status.queued :: Status.running :: pre, by simp, rfl, ?_, hterm⟩
                intro s hs
                simp only [List.mem_cons] at hs
                rcases hs with rfl | rfl | h
                · rfl
                · rfl
                · exact hnt s h

/-- C3.  `spawn` returns (at trace position 0, a Queued, non-terminal
status) before the job reaches its terminal state, while `call` yields
nothing at any pre-terminal status and at the terminal status returns
the result on success or raises the terminal error on failure. -/
theorem claim_C3 {α ε : Type} (cls : ε → Classification)
    (attempt : Nat → AttemptResult α ε) (k : Nat) (hk : 1 ≤ k) :
    ∃ pre t, invocationTrace cls attempt k = pre ++ [t] ∧
      spawnReturnIndex = 0 ∧
      pre.head? = some Status.queued ∧
      (∀ s ∈ pre, isTerminal s = false) ∧
      (∀ s ∈ pre, statusToResult s = (none : Option (Except ε α))) ∧
      isTerminal t = true ∧
      callResult cls attempt k = statusToResult t ∧
      ((∃ r, t = Status.succeeded r ∧ callResult cls attempt k = some (Except.ok r)) ∨
        (∃ e, t = Status.failedFatal e ∧ callResult cls attempt k = some (Except.error e))) := by
  obtain ⟨pre, hpre, hhead, hnt, hterm⟩ := traceGo_shape cls attempt k 0 hk
  refine ⟨pre, (superviseGo cls attempt 0 k).2, hpre, rfl, hhead, hnt, ?_, hterm, rfl, ?_⟩
  · intro s hs
    have h := hnt s hs
    cases s <;> simp_all [isTerminal, statusToResult]
  · cases hcase : (superviseGo cls attempt 0 k).2 with
    | queued => rw [hcase] at hterm; simp [isTerminal] at hterm
    | running => rw [hcase] at hterm; simp [isTerminal] at hterm
    | succeeded r =>
        left
        exact ⟨r, rfl, by simp [callResult, supervise, hcase, statusToResult]⟩
    | failedFatal e =>
        right
        exact ⟨e, rfl, by simp [callResult, supervise, hcase, statusToResult]⟩

/-- Witness for C3: a concrete invocation that succeeds on its first
attempt under the script's classifier with 3 attempts allowed. -/
theorem claim_C3_witness :
    ∃ pre t,
      invocationTrace parseReceiptClassify (fun _ => (AttemptResult.success 0 : AttemptResult Nat Nat)) 3
        = pre ++ [t] ∧
      spawnReturnIndex = 0 ∧
      pre.head? = some Status.queued ∧
      (∀ s ∈ pre, isTerminal s = false) ∧
      (∀ s ∈ pre, statusToResult s = (none : Option (Except Nat Nat))) ∧
      isTerminal t = true ∧
      callResult parseReceiptClassify (fun _ => (AttemptResult.success 0 : AttemptResult Nat Nat)) 3
        = statusToResult t ∧
      ((∃ r, t = Status.succeeded r ∧
          callResult parseReceiptClassify (fun _ => (AttemptResult.success 0 : AttemptResult Nat Nat)) 3
            = some (Except.ok r)) ∨
        (∃ e, t = Status.failedFatal e ∧
          callResult parseReceiptClassify (fun _ => (AttemptResult.success 0 : AttemptResult Nat Nat)) 3
            = some (Except.error e))) :=
  claim_C3 parseReceiptClassify (fun _ => AttemptResult.success 0) 3 (by decide)

/-! ## The local entrypoint `main` (translated from the script) -/

/-- Observable actions of the local entrypoint. -/
inductive MainAction where
  | readLocalFileFull (fname : String)
  | fetchUrl (url : String)
  | callSync (payload : List Nat)
  | printToStdout (r : String)
deriving DecidableEq, Repr

/-- The local environment `main` runs against: whether `receipt.png`
exists next to the script, its bytes, and the bytes the fallback URL
would return. -/
structure LocalEnv where
  receiptFileExists : Bool
  receiptFileBytes : List Nat
  fetchedBytes : List Nat
deriving DecidableEq, Repr

/-- The input bytes `main` resolves: the local fixture read in full when
it exists, else the network-fetched sample. -/
def mainInput (env : LocalEnv) : List Nat :=
  if env.receiptFileExists then env.receiptFileBytes else env.fetchedBytes

/-- Translated from `main`: check `receipt.png` next to the script, read
it in full if present, else fetch the fallback sample URL; then invoke
`parse_receipt.call` on the bytes and print the result. -/
def mainTrace (env : LocalEnv) (callFn : List Nat → String) : List MainAction :=
  if env.receiptFileExists then
    [ MainAction.readLocalFileFull "receipt.png",
      MainAction.callSync env.receiptFileBytes,
      MainAction.printToStdout (callFn env.receiptFileBytes) ]
  else
    [ MainAction.fetchUrl fallbackUrl,
      MainAction.callSync env.fetchedBytes,
      MainAction.printToStdout (callFn env.fetchedBytes) ]

/-- C4.  `main` (which takes no arguments, hence no required flags)
reads the local fixture `receipt.png` in full when it exists and
otherwise fetches the fallback sample over the network, then invokes the
registered function synchronously on those bytes and prints the result
to standard output. -/
theorem claim_C4 (env : LocalEnv) (callFn : List Nat → String) :
    (env.receiptFileExists = true →
      mainInput env = env.receiptFileBytes ∧
      mainTrace env callFn =
        [ MainAction.readLocalFileFull "receipt.png",
          MainAction.callSync env.receiptFileBytes,
          MainAction.printToStdout (callFn env.receiptFileBytes) ]) ∧
    (env.receiptFileExists = false →
      mainInput env = env.fetchedBytes ∧
      mainTrace env callFn =
        [ MainAction.fetchUrl fallbackUrl,
          MainAction.callSync env.fetchedBytes,
          MainAction.printToStdout (callFn env.fetchedBytes) ]) ∧
    MainAction.callSync (mainInput env) ∈ mainTrace env callFn ∧
    MainAction.printToStdout (callFn (mainInput env)) ∈ mainTrace env callFn := by
  cases henv : env.receiptFileExists <;>
    simp [mainInput, mainTrace, henv]

/-- Witness for C4 on a concrete environment where the fixture exists. -/
theorem claim_C4_witness :
    mainInput ⟨true, [1, 2], [3]⟩ = [1, 2] ∧
    mainTrace ⟨true, [1, 2], [3]⟩ (fun _ => "res") =
      [ MainAction.readLocalFileFull "receipt.png",
        MainAction.callSync [1, 2],
        MainAction.printToStdout "res" ] :=
  (claim_C4 ⟨true, [1, 2], [3]⟩ (fun _ => "res")).1 rfl

/-! ## Model cache (translated from the script) -/

/-- One write into a model cache: a snapshot of `repoId` stored under
`cacheDir`. -/
structure CacheWrite where
  repoId : String
  cacheDir : String
deriving DecidableEq, Repr

/-- Translated from `download_model_weights`: it calls
`snapshot_download` with repo id `MODEL_NAME` and cache dir `CACHE_PATH`. -/
def download_model_weights : CacheWrite := ⟨MODEL_NAME, CACHE_PATH⟩

/-- Translated from `parse_receipt`: the (model, cache dir) pair passed
to `DonutModel.from_pretrained`. -/
def parseReceiptModelLoad : String × String := (MODEL_NAME, CACHE_PATH)

/-- Modelled from the spec: the cache contents baked into the image by
its `run_function(download_model_weights)` step. -/
def imageCacheWrites : List CacheWrite := [download_model_weights]

/-- Modelled from the spec: a Worker instantiated from an image sees
exactly the image's baked cache contents (read-only at invocation
time). -/
def workerCache (imgCache : List CacheWrite) : List CacheWrite := imgCache

/-- Modelled from the spec: a `from_pretrained`-style load downloads
exactly when the requested (repo, cache dir) snapshot is absent from the
cache it reads. -/
def fromPretrainedDownloads (cache : List CacheWrite) (repo dir : String) : Bool :=
  ! decide ((⟨repo, dir⟩ : CacheWrite) ∈ cache)

/-- C6.  The cache path written at image-build time equals the cache
path read by the handler: `download_model_weights` writes `MODEL_NAME`
into `CACHE_PATH`, this cache persists unchanged into every Worker
instantiated from the image, and `parse_receipt` loads the model from
that cache without downloading on any invocation. -/
theorem claim_C6 :
    download_model_weights.cacheDir = parseReceiptModelLoad.2 ∧
    download_model_weights.repoId = parseReceiptModelLoad.1 ∧
    workerCache imageCacheWrites = imageCacheWrites ∧
    fromPretrainedDownloads (workerCache imageCacheWrites) MODEL_NAME CACHE_PATH = false := by
  refine ⟨rfl, rfl, rfl, ?_⟩
  decide

/-! ## `parse_receipt` handler body (translated from the script) -/

/-- Python runtime errors relevant to the handler body. -/
inductive PyError where
  | indexError
  | cudaUnavailable
deriving DecidableEq, Repr

/-- The model-inference output: the value under the `"predictions"` key. -/
structure InferenceOutput where
  predictions : List String
deriving DecidableEq, Repr

/-- Translated from `parse_receipt`:
`output = pretrained_model.inference(image=input_img, prompt=task_prompt)["predictions"][0]`.
Python's `[0]` on an empty list raises `IndexError`, else yields the
first element, which the handler returns. -/
def parseReceiptOutput (inf : InferenceOutput) : Except PyError String :=
  match inf.predictions with
  | [] => Except.error PyError.indexError
  | p :: _ => Except.ok p

/-- C9.  When the inference output has an empty `"predictions"` list,
`parse_receipt` raises an uncaught index-out-of-range error instead of
returning; it returns a value only when the list is non-empty, and then
returns exactly its first element. -/
theorem claim_C9 (inf : InferenceOutput) :
    (inf.predictions = [] → parseReceiptOutput inf = Except.error PyError.indexError) ∧
    (∀ r, parseReceiptOutput inf = Except.ok r →
      inf.predictions ≠ [] ∧ inf.predictions.head? = some r) := by
  cases hp : inf.predictions with
  | nil => simp [parseReceiptOutput, hp]
  | cons p rest =>
      constructor
      · intro h
        simp [hp] at h
      · intro r hr
        simp only [parseReceiptOutput, hp, Except.ok.injEq] at hr
        subst hr
        simp [hp]

/-- Witness for C9 on an empty and a singleton predictions list. -/
theorem claim_C9_witness :
    parseReceiptOutput ⟨[]⟩ = Except.error PyError.indexError ∧
    ((⟨["a", "b"]⟩ : InferenceOutput).predictions ≠ [] ∧
      (⟨["a", "b"]⟩ : InferenceOutput).predictions.head? = some "a") :=
  ⟨(claim_C9 ⟨[]⟩).1 rfl, (claim_C9 ⟨["a", "b"]⟩).2 "a" rfl⟩

/-- One step of the straight-line body of `parse_receipt`, in source
order. -/
inductive HandlerStep where
  | loadPretrained (repo dir : String)
  | halfPrecision
  | toDevice (d : String)
  | openImage
  | runInference
deriving DecidableEq, Repr

/-- Translated from the body of `parse_receipt`: load the model from the
cache, halve precision, move the model to `torch.device("cuda")`, open
the payload image, run inference. -/
def parseReceiptSteps : List HandlerStep :=
  [ HandlerStep.loadPretrained MODEL_NAME CACHE_PATH,
    HandlerStep.halfPrecision,
    HandlerStep.toDevice "cuda",
    HandlerStep.openImage,
    HandlerStep.runInference ]

/-- Modelled from the spec: moving a model to the CUDA device raises on
a Worker without a CUDA accelerator; the other steps are modelled as
succeeding. -/
def runHandlerStep (hasCUDA : Bool) : HandlerStep → Except PyError Unit
  | HandlerStep.toDevice "cuda" =>
      if hasCUDA then Except.ok () else Except.error PyError.cudaUnavailable
  | _ => Except.ok ()

/-- Run the handler body: execute the steps in order, stopping at the
first error. -/
def runHandlerSteps (hasCUDA : Bool) : List HandlerStep → Except PyError Unit
  | [] => Except.ok ()
  | s :: rest =>
      match runHandlerStep hasCUDA s with
      | Except.ok _ => runHandlerSteps hasCUDA rest
      | Except.error e => Except.error e

/-- Each execution attempt of the handler runs the same straight-line
body on a fresh Worker with the same CUDA availability. -/
def handlerAttempt (hasCUDA : Bool) (_i : Nat) : AttemptResult Unit PyError :=
  match runHandlerSteps hasCUDA parseReceiptSteps with
  | Except.ok u => AttemptResult.success u
  | Except.error e => AttemptResult.failure e

/-- C10.  `parse_receipt` unconditionally moves the model to the CUDA
device before inference, matching its declared `gpu="any"` resource
requirement; on a Worker without CUDA the body raises, on every
attempt. -/
theorem claim_C10 :
    HandlerStep.toDevice "cuda" ∈ parseReceiptSteps ∧
    List.indexOf (HandlerStep.toDevice "cuda") parseReceiptSteps <
      List.indexOf HandlerStep.runInference parseReceiptSteps ∧
    parseReceiptDef.gpu = some "any" ∧
    runHandlerSteps false parseReceiptSteps = Except.error PyError.cudaUnavailable ∧
    (∀ i : Nat, handlerAttempt false i = AttemptResult.failure PyError.cudaUnavailable) := by
  exact ⟨by decide, by decide, rfl, rfl, fun i => rfl⟩

/-! ## Image Builder (Modelled from the spec, section 4.1) -/

/-- A content-addressed artifact reference: the address is determined by
the Image Spec's ordered step sequence. -/
structure ImageRef where
  contentKey : List ImageStep
deriving DecidableEq, Repr

/-- Modelled from the spec: the artifact reference is a deterministic
function of the ordered step sequence (content addressing). -/
def buildRef (steps : List ImageStep) : ImageRef := ⟨steps⟩

/-- Modelled from the spec: build into a store of already-built
artifacts; rebuilding an already-present spec is a no-op on the store
and returns the same reference. -/
def buildInto (store : List ImageRef) (steps : List ImageStep) :
    List ImageRef × ImageRef :=
  if buildRef steps ∈ store then (store, buildRef steps)
  else (buildRef steps :: store, buildRef steps)

/-- Modelled from the spec: execute build steps in declared order
starting at index `i`; a failing step aborts the build with a Build
Error naming the failing step index, a successful build reports the
executed steps in order. -/
def execBuildSteps (ok : ImageStep → Bool) : List ImageStep → Nat → Except Nat (List ImageStep)
  | [], _ => Except.ok []
  | s :: rest, i =>
      if ok s then
        match execBuildSteps ok rest (i + 1) with
        | Except.ok tr => Except.ok (s :: tr)
        | Except.error j => Except.error j
      else Except.error i

/-- When every step succeeds, the build executes exactly the declared
steps in declared order. -/
lemma execBuildSteps_all_ok (ok : ImageStep → Bool) :
    ∀ steps i, (∀ s ∈ steps, ok s = true) →
      execBuildSteps ok steps i = Except.ok steps := by
  intro steps
  induction steps with
  | nil => intro i _; rfl
  | cons s rest ih =>
      intro i h
      have hs : ok s = true := h s (List.mem_cons_self s rest)
      have hr : ∀ x ∈ rest, ok x = true := fun x hx => h x (List.mem_cons_of_mem s hx)
      rw [execBuildSteps, if_pos hs, ih (i + 1) hr]

/-- When some step fails, the build aborts with the index of the first
failing step. -/
lemma execBuildSteps_fail (ok : ImageStep → Bool) :
    ∀ steps i, (∃ s ∈ steps, ok s = false) →
      execBuildSteps ok steps i =
        Except.error (i + List.findIdx (fun s => ! ok s) steps) := by
  intro steps
  induction steps with
  | nil => intro i h; simp at h
  | cons s rest ih =>
      intro i h
      cases hs : ok s with
      | false =>
          rw [execBuildSteps, if_neg (by simp [hs])]
          simp [List.findIdx_cons, hs]
      | true =>
          have hr : ∃ x ∈ rest, ok x = false := by
            rcases h with ⟨x, hx, hxf⟩
            rcases List.mem_cons.mp hx with rfl | hx2
            · rw [hs] at hxf; cases hxf
            · exact ⟨x, hx2, hxf⟩
          rw [execBuildSteps, if_pos hs, ih (i + 1) hr]
          simp [List.findIdx_cons, hs]
          omega

/-- C5.  For Image Specs with identical ordered step sequences (the
script's: debian_slim, the pinned pip install, then
`download_model_weights`), builds yield the same artifact reference,
rebuilding an unchanged spec is a no-op, steps execute in declared
order, and a failing step aborts the build with a Build Error naming the
first failing step index. -/
theorem claim_C5 (steps₂ : List ImageStep) (store : List ImageRef)
    (ok : ImageStep → Bool) :
    (imageSteps = steps₂ → buildRef imageSteps = buildRef steps₂) ∧
    buildInto (buildInto store imageSteps).1 imageSteps = buildInto store imageSteps ∧
    ((∀ s ∈ imageSteps, ok s = true) →
      execBuildSteps ok imageSteps 0 = Except.ok imageSteps) ∧
    ((∃ s ∈ imageSteps, ok s = false) →
      execBuildSteps ok imageSteps 0 =
        Except.error (List.findIdx (fun s => ! ok s) imageSteps)) ∧
    parseReceiptDef.imageRef = imageSteps := by
  refine ⟨fun h => by rw [h], ?_, ?_, ?_, rfl⟩
  · by_cases h : buildRef imageSteps ∈ store
    · simp [buildInto, h]
    · simp [buildInto, h]
  · intro h
    exact execBuildSteps_all_ok ok imageSteps 0 h
  · intro h
    have := execBuildSteps_fail ok imageSteps 0 h
    rwa [Nat.zero_add] at this

/-- Witness for C5: a concrete empty store, an all-succeeding step
oracle, and an oracle failing at the base step (index 0). -/
theorem claim_C5_witness :
    buildRef imageSteps = buildRef imageSteps ∧
    buildInto (buildInto [] imageSteps).1 imageSteps = buildInto [] imageSteps ∧
    execBuildSteps (fun _ => true) imageSteps 0 = Except.ok imageSteps ∧
    execBuildSteps (fun s => ! decide (s = ImageStep.debianSlim)) imageSteps 0 =
      Except.error
        (List.findIdx (fun s => ! (! decide (s = ImageStep.debianSlim))) imageSteps) ∧
    parseReceiptDef.imageRef = imageSteps := by
  have h1 := claim_C5 imageSteps [] (fun _ => true)
  have h2 := claim_C5 imageSteps [] (fun s => ! decide (s = ImageStep.debianSlim))
  exact ⟨h1.1 rfl, h1.2.1, h1.2.2.1 (by decide), h2.2.2.2.1 (by decide), h1.2.2.2.2⟩

/-! ## Function Registry (Modelled from the spec, section 4.2) -/

/-- Result of a registry lookup. -/
inductive LookupResult where
  | notFound
  | found (d : FunctionDefinition)
deriving DecidableEq, Repr

/-- Modelled from the spec: look a Function Definition up by its
(namespace, name) key; Not Found when no deployment under that key
exists. -/
def lookup (reg : List ((String × String) × FunctionDefinition))
    (ns nm : String) : LookupResult :=
  match reg.find? (fun p => decide (p.1 = (ns, nm))) with
  | some p => LookupResult.found p.2
  | none => LookupResult.notFound

/-- The registry produced by deploying the script: `parse_receipt`
registered under the stub name `example-doc-ocr-jobs`. -/
def deployedRegistry : List ((String × String) × FunctionDefinition) :=
  [((stubName, "parse_receipt"), parseReceiptDef)]

/-- C7.  Lookup of a (namespace, name) pair with no deployment fails
with Not Found; any definition lookup returns was registered under
exactly that key (never stale or partial); the deployed `parse_receipt`
is found under ("example-doc-ocr-jobs", "parse_receipt"). -/
theorem claim_C7 (reg : List ((String × String) × FunctionDefinition))
    (ns nm : String) :
    ((∀ p ∈ reg, p.1 ≠ (ns, nm)) → lookup reg ns nm = LookupResult.notFound) ∧
    (∀ d, lookup reg ns nm = LookupResult.found d →
      ∃ p ∈ reg, p.1 = (ns, nm) ∧ p.2 = d) ∧
    lookup deployedRegistry stubName "parse_receipt" = LookupResult.found parseReceiptDef := by
  refine ⟨?_, ?_, rfl⟩
  · intro h
    have hnone : reg.find? (fun p => decide (p.1 = (ns, nm))) = none := by
      rw [List.find?_eq_none]
      intro p hp
      simp [h p hp]
    rw [lookup, hnone]
  · intro d hd
    rw [lookup] at hd
    cases hfind : reg.find? (fun p => decide (p.1 = (ns, nm))) with
    | none => rw [hfind] at hd; cases hd
    | some p =>
        rw [hfind] at hd
        have hmem := List.mem_of_find?_eq_some hfind
        have hkey := List.find?_some hfind
        simp only [decide_eq_true_eq] at hkey
        cases hd
        exact ⟨p, hmem, hkey, rfl⟩

/-- Witness for C7: an absent key is Not Found, and the deployed key is
found with exactly the registered definition. -/
theorem claim_C7_witness :
    lookup deployedRegistry "other-app" "parse_receipt" = LookupResult.notFound ∧
    (∃ p ∈ deployedRegistry, p.1 = (stubName, "parse_receipt") ∧ p.2 = parseReceiptDef) ∧
    lookup deployedRegistry stubName "parse_receipt" = LookupResult.found parseReceiptDef := by
  refine ⟨(claim_C7 deployedRegistry "other-app" "parse_receipt").1 (by decide),
    (claim_C7 deployedRegistry stubName "parse_receipt").2.1 parseReceiptDef (by decide),
    (claim_C7 deployedRegistry stubName "parse_receipt").2.2⟩

/-! ## Autoscaled Worker pool (Modelled from the spec, sections 4.3 and 5) -/

/-- Observable state of the job-queue system: queued jobs, in-flight
jobs, and Worker pool size. -/
structure PoolState where
  backlog : Nat
  inFlight : Nat
  pool : Nat
deriving DecidableEq, Repr

/-- Modelled from the spec: the autoscaler's pool size — grows with
outstanding work, capped at an implementation-defined maximum `N`, and
shrinks to 0 when idle. -/
def autoscaled (N b f : Nat) : Nat := min N (b + f)

/-- Modelled from the spec: job-lifecycle transitions (submit a job,
start a queued job on a Worker, finish an in-flight job); after each
event the autoscaler resizes the pool to its target. -/
inductive PoolStep (N : Nat) : PoolState → PoolState → Prop
  | submit (b f p : Nat) : PoolStep N ⟨b, f, p⟩ ⟨b + 1, f, autoscaled N (b + 1) f⟩
  | start (b f p : Nat) : PoolStep N ⟨b + 1, f, p⟩ ⟨b, f + 1, autoscaled N b (f + 1)⟩
  | finish (b f p : Nat) : PoolStep N ⟨b, f + 1, p⟩ ⟨b, f, autoscaled N b f⟩

/-- The idle initial state: nothing queued, nothing running, no
Workers. -/
def initialPoolState : PoolState := ⟨0, 0, 0⟩

/-- Modelled from the spec: states reachable from the idle initial
state by job-lifecycle transitions. -/
inductive Reachable (N : Nat) : PoolState → Prop
  | init : Reachable N initialPoolState
  | step (s t : PoolState) : Reachable N s → PoolStep N s t → Reachable N t

/-- C8.  In every reachable state: if the backlog is 0 and no jobs are
in flight then the Worker pool size is 0 (scale-to-zero), and the pool
size never exceeds the implementation-defined maximum `N` nor the
outstanding work. -/
theorem claim_C8 (N : Nat) (s : PoolState) (h : Reachable N s) :
    (s.backlog = 0 → s.inFlight = 0 → s.pool = 0) ∧
    s.pool ≤ N ∧ s.pool ≤ s.backlog + s.inFlight := by
  induction h with
  | init => exact ⟨fun _ _ => rfl, Nat.zero_le N, Nat.zero_le 0⟩
  | step s t _ hstep _ =>
      cases hstep with
      | submit b f p => refine ⟨?_, ?_, ?_⟩ <;> simp [autoscaled]
      | start b f p => refine ⟨?_, ?_, ?_⟩ <;> simp [autoscaled]
      | finish b f p =>
          refine ⟨?_, ?_, ?_⟩ <;> simp [autoscaled]
          intro hb hf
          right
          exact ⟨hb, hf⟩

/-- Witness for C8 at the reachable initial state with maximum 5. -/
theorem claim_C8_witness :
    (initialPoolState.backlog = 0 → initialPoolState.inFlight = 0 →
      initialPoolState.pool = 0) ∧
    initialPoolState.pool ≤ 5 ∧
    initialPoolState.pool ≤ initialPoolState.backlog + initialPoolState.inFlight :=
  claim_C8 5 initialPoolState Reachable.init

end DocOcrJobs
